import Mathlib

/-!
Verification of the execution-lifecycle and builtin calling-convention layer
of `crates/cairo-addons/src/vm/runner.rs` (`PyCairoRunner`), shallowly
embedded in Lean 4.

The Rust file wraps an external VM engine (`cairo_vm`).  The parts of the
logic that live in `runner.rs` itself — the builtin stack construction, the
reverse return-value walk with missing-builtin tolerance, the
`verify_and_relocate` phase chain, the error wrapping, and the accessors —
are translated here directly from the source.  Behaviour of the external
engine (builtin runners' `initial_stack`/`final_stack`, the engine's
`relocate`) is abstracted as parameters, or, where a claim is decided by it,
modelled from the specification with an explicit doc comment.
-/

namespace Runner

/-- A segmented VM address: `(segment_index, offset)`.  `segment_index` is an
`isize` in the source (may be negative for temporary segments) and `offset`
a `usize`. -/
structure Relocatable where
  segment_index : Int
  offset : Nat
deriving DecidableEq, Repr

/-- A memory cell value: either an address or a field element.  Field
elements are modelled as natural numbers (`Felt252` values are non-negative
and compared to zero only). -/
inductive MaybeRelocatable where
  | relocatable (r : Relocatable)
  | int (v : Nat)
deriving DecidableEq, Repr

/-- The builtin names known to the VM, from the external `BuiltinName` enum
of `cairo_vm` (a plain data enum, reproduced here). -/
inductive BuiltinName where
  | output
  | range_check
  | pedersen
  | ecdsa
  | keccak
  | bitwise
  | ec_op
  | poseidon
  | segment_arena
  | range_check96
  | add_mod
  | mul_mod
deriving DecidableEq, Repr

/-- Display form of a builtin name (the `Display` impl of `BuiltinName`,
used in the source's error messages). -/
def BuiltinName.toStr : BuiltinName → String
  | .output => "output"
  | .range_check => "range_check"
  | .pedersen => "pedersen"
  | .ecdsa => "ecdsa"
  | .keccak => "keccak"
  | .bitwise => "bitwise"
  | .ec_op => "ec_op"
  | .poseidon => "poseidon"
  | .segment_arena => "segment_arena"
  | .range_check96 => "range_check96"
  | .add_mod => "add_mod"
  | .mul_mod => "mul_mod"

/-- `BuiltinName::from_str_with_suffix`: parses a suffixed builtin name
string, returning `none` for an unknown name (external `cairo_vm` data
function, reproduced here). -/
def BuiltinName.from_str_with_suffix : String → Option BuiltinName
  | "output_builtin" => some .output
  | "range_check_builtin" => some .range_check
  | "pedersen_builtin" => some .pedersen
  | "ecdsa_builtin" => some .ecdsa
  | "keccak_builtin" => some .keccak
  | "bitwise_builtin" => some .bitwise
  | "ec_op_builtin" => some .ec_op
  | "poseidon_builtin" => some .poseidon
  | "segment_arena_builtin" => some .segment_arena
  | "range_check96_builtin" => some .range_check96
  | "add_mod_builtin" => some .add_mod
  | "mul_mod_builtin" => some .mul_mod
  | _ => none

/-- Abstraction of one registered builtin runner: the two operations the
calling convention uses.  `final_stack` takes the current return pointer and
yields the updated pointer, or an error on a malformed layout (the concrete
layout rules live in the external engine). -/
structure BuiltinRunnerModel where
  initial_stack : List MaybeRelocatable
  final_stack : Relocatable → Except String Relocatable

/-- The registry of builtin runners present in the VM
(`self.inner.vm.builtin_runners`, keyed by name as in the source's
`HashMap`). -/
def Registry := BuiltinName → Option BuiltinRunnerModel

/-- The fields of `PyCairoRunner` relevant to the claims: the stored ordered
builtin list and the missing-builtin-tolerance flag. -/
structure RunnerSt where
  builtins : List BuiltinName
  allow_missing_builtins : Bool

/-- The VM memory, as a partial map from addresses to cell values.  `none`
is an unknown (never written) cell. -/
def Memory := Relocatable → Option MaybeRelocatable

/-- `vm.get_integer(ptr)`: reads a cell and requires it to hold a field
element; fails on an unknown cell or on an address value. -/
def getInteger (mem : Memory) (ptr : Relocatable) : Except String Nat :=
  match mem ptr with
  | some (.int v) => .ok v
  | some (.relocatable _) => .error "Memory value is not an integer"
  | none => .error "Unknown memory cell"

/-- The name-parsing step of `builtins_stack`: `names.iter().map(
BuiltinName::from_str_with_suffix ... ).collect::<PyResult<Vec<_>>>()?`.
The whole list is parsed before any state is updated; the first unknown name
aborts with a `ValueError`. -/
def parseBuiltins : List String → Except String (List BuiltinName)
  | [] => .ok []
  | name :: rest =>
    match BuiltinName.from_str_with_suffix name with
    | some b => (parseBuiltins rest).map fun bs => b :: bs
    | none => .error ("Invalid builtin name: " ++ name)

/-- The push loop of `builtins_stack` (`for builtin_name in self.builtins`):
walks the builtin list in order, appending each registered runner's
`initial_stack`; an unregistered name aborts with a `ValueError`.  The first
component records the names whose `initial_stack` was pushed, in push
order (the source pushes into a local `stack` that is dropped on error). -/
def builtinsStackLoop (reg : Registry) :
    List BuiltinName → List BuiltinName × Except String (List MaybeRelocatable)
  | [] => ([], .ok [])
  | b :: rest =>
    match reg b with
    | some runner =>
      let tail := builtinsStackLoop reg rest
      (b :: tail.1, tail.2.map fun s => runner.initial_stack ++ s)
    | none => ([], .error ("Builtin runner " ++ b.toStr ++ " not found"))

/-- `PyCairoRunner::builtins_stack`: optionally replaces the stored builtin
list with the parsed override (only after the whole override parses), then
pushes every builtin's `initial_stack` in list order.  Returns the updated
runner state together with the result; on a parse error the state is
returned unchanged. -/
def builtins_stack (st : RunnerSt) (reg : Registry)
    (ordered_builtins : Option (List String)) :
    RunnerSt × Except String (List MaybeRelocatable) :=
  match ordered_builtins with
  | none => (st, (builtinsStackLoop reg st.builtins).2)
  | some names =>
    match parseBuiltins names with
    | .error e => (st, .error e)
    | .ok bs => ({ st with builtins := bs }, (builtinsStackLoop reg bs).2)

/-- The segment counter of the VM's memory-segment manager: allocating a
segment returns base `(num_segments, 0)` and bumps the counter. -/
structure VmSt where
  num_segments : Nat
deriving DecidableEq, Repr

/-- `vm.add_memory_segment()`: allocates a fresh segment and returns its
base address. -/
def add_memory_segment (vm : VmSt) : Relocatable × VmSt :=
  (⟨(vm.num_segments : Int), 0⟩, ⟨vm.num_segments + 1⟩)

/-- `PyCairoRunner::initialize_vm`, up to the hand-off to the external
engine: builds the builtin stack, prepends it to the caller stack, and
allocates a fresh segment for the return frame pointer.  The result exposes
the call stack passed to `initialize_function_entrypoint` and the fresh
`return_fp`; the engine call itself is external. -/
def initialize_vm (st : RunnerSt) (vm : VmSt) (reg : Registry)
    (stack : List MaybeRelocatable) (ordered_builtins : Option (List String)) :
    RunnerSt × VmSt × Except String (List MaybeRelocatable × Relocatable) :=
  match builtins_stack st reg ordered_builtins with
  | (st', .error e) => (st', vm, .error e)
  | (st', .ok initial_stack) =>
    let rfp := add_memory_segment vm
    (st', rfp.2, .ok (initial_stack ++ stack, rfp.1))

/-- The loop body of `PyCairoRunner::_read_return_values`, over the already
reversed builtin list (`self.builtins.iter().rev()`).  For a registered
builtin the runner's `final_stack` is delegated to; for an unregistered one,
with tolerance off the walk fails, and with tolerance on the pointer's
offset is decremented with `usize::saturating_sub` and the cell there must
hold integer zero.  The first component records the names whose
`final_stack` was actually invoked, in invocation order. -/
def readReturnLoop (st : RunnerSt) (reg : Registry) (mem : Memory) :
    List BuiltinName → Relocatable → List BuiltinName × Except String Relocatable
  | [], pointer => ([], .ok pointer)
  | b :: rest, pointer =>
    match reg b with
    | some runner =>
      match runner.final_stack pointer with
      | .error e => ([b], .error e)
      | .ok new_pointer =>
        let tail := readReturnLoop st reg mem rest new_pointer
        (b :: tail.1, tail.2)
    | none =>
      if !st.allow_missing_builtins then
        ([], .error ("Missing builtin: " ++ b.toStr))
      else
        let pointer' : Relocatable := ⟨pointer.segment_index, pointer.offset - 1⟩
        match getInteger mem pointer' with
        | .error e => ([], .error e)
        | .ok v =>
          if v ≠ 0 then
            ([], .error ("Missing builtin stop ptr not zero: " ++ b.toStr))
          else
            readReturnLoop st reg mem rest pointer'

/-- `PyCairoRunner::_read_return_values(offset)`: starts from
`get_ap() - offset` (whose `unwrap` panics when `offset > ap.offset`) and
walks the stored builtin list in reverse.  Returns the invocation log and
the final pointer (the source discards the pointer; it is kept here as the
observable of the walk). -/
def read_return_values (st : RunnerSt) (reg : Registry) (mem : Memory)
    (ap : Relocatable) (offset : Nat) :
    List BuiltinName × Except String Relocatable :=
  if offset ≤ ap.offset then
    readReturnLoop st reg mem st.builtins.reverse
      ⟨ap.segment_index, ap.offset - offset⟩
  else
    ([], .error "panic: usize subtraction overflow in get_ap() - offset")

/-- The four phases chained by `verify_and_relocate`, in source order. -/
inductive Phase where
  | verifyAutoDeductions
  | readReturnValues
  | verifySecureRunner
  | relocatePhase
deriving DecidableEq, Repr

/-- `PyCairoRunner::verify_and_relocate(offset)`: the `?`-chain
`verify_auto_deductions()?; read_return_values(offset)?;
verify_secure_runner()?; relocate()?`.  The phases' own bodies delegate to
the external engine, so each phase's outcome is a parameter; the first
component records which phases actually ran, in execution order, and the
second the overall result (the error of the first failing phase). -/
def verify_and_relocate (outcome : Phase → Except String Unit) :
    List Phase × Except String Unit :=
  match outcome .verifyAutoDeductions with
  | .error e => ([.verifyAutoDeductions], .error e)
  | .ok _ =>
    match outcome .readReturnValues with
    | .error e => ([.verifyAutoDeductions, .readReturnValues], .error e)
    | .ok _ =>
      match outcome .verifySecureRunner with
      | .error e =>
        ([.verifyAutoDeductions, .readReturnValues, .verifySecureRunner],
          .error e)
      | .ok _ =>
        match outcome .relocatePhase with
        | .error e =>
          ([.verifyAutoDeductions, .readReturnValues, .verifySecureRunner,
            .relocatePhase], .error e)
        | .ok _ =>
          ([.verifyAutoDeductions, .readReturnValues, .verifySecureRunner,
            .relocatePhase], .ok ())

/-- One relocated trace entry: `pc`, `ap`, `fp` rewritten onto the flat
address line (`usize` fields). -/
structure RelocatedTraceEntry where
  pc : Nat
  ap : Nat
  fp : Nat
deriving DecidableEq, Repr

/-- The state of the inner engine runner that the accessors and `relocate`
read: `program_base` (set by `initialize_segments`) and `relocated_trace`
(set by a successful relocation, `None` before). -/
structure InnerSt where
  program_base : Option Relocatable
  relocated_trace : Option (List RelocatedTraceEntry)

/-- Modelled from the spec: the external engine's `CairoRunner::relocate`
(absent from the sources; only its caller is in `runner.rs`).  Per the spec,
relocation is "callable once only — repeat invocation fails": a second call
finds the trace already relocated and errors; a first call stores the
relocated trace, computed by an engine-internal rewrite abstracted as
`rewrite`. -/
def inner_relocate (rewrite : List RelocatedTraceEntry)
    (s : InnerSt) : InnerSt × Except String Unit :=
  match s.relocated_trace with
  | some _ => (s, .error "Trace is already relocated")
  | none => ({ s with relocated_trace := some rewrite }, .ok ())

/-- `PyCairoRunner::relocate`: delegates to the inner relocation and maps
the error to a runtime-error message
(`map_err(|e| PyRuntimeError(e.to_string()))`). -/
def relocate (rewrite : List RelocatedTraceEntry)
    (s : InnerSt) : InnerSt × Except String Unit :=
  inner_relocate rewrite s

/-- The `program_base` getter: surfaces the inner field. -/
def program_base (s : InnerSt) : Option Relocatable :=
  s.program_base

/-- The `execution_base` getter: not stored, derived from `program_base` by
incrementing the segment index (offset 0). -/
def execution_base (s : InnerSt) : Option Relocatable :=
  s.program_base.map fun x => ⟨x.segment_index + 1, 0⟩

/-- The `relocated_trace` getter:
`Ok(relocated_trace.clone().unwrap_or_default())` — never an error, empty
before relocation. -/
def relocated_trace (s : InnerSt) : Except String (List RelocatedTraceEntry) :=
  .ok (s.relocated_trace.getD [])

/-- Truncation of a `usize` trace field to the `u64` dataframe column type
(`entry.pc as u64`). -/
def toU64 (n : Nat) : Nat := n % 2 ^ 64

/-- One row of the tabular trace view, with the three integer columns. -/
structure TraceRow where
  pc : Nat
  ap : Nat
  fp : Nat
deriving DecidableEq, Repr

/-- The `trace_df` getter: one row per entry of
`relocated_trace.clone().unwrap_or_default()`, in trace order, with the
`pc`/`ap`/`fp` fields cast to `u64` (the source fills the three equal-length
column vectors in one walk; the row list below is that walk). -/
def trace_df (s : InnerSt) : List TraceRow :=
  (s.relocated_trace.getD []).map fun e => ⟨toU64 e.pc, toU64 e.ap, toU64 e.fp⟩

/-- The error mapping `verify_auto_deductions` applies to the inner result:
`map_err(|e| PyRuntimeError(e.to_string()))` — the surfaced message is the
underlying error's display string, unchanged (errors are modelled by their
display strings). -/
def verify_auto_deductions_py (inner : Except String Unit) :
    Except String Unit :=
  match inner with
  | .error e => .error e
  | .ok _ => .ok ()

/-- The error mapping `verify_secure_runner` applies to the result of the
external security check: the underlying message, unchanged. -/
def verify_secure_runner_py (inner : Except String Unit) :
    Except String Unit :=
  match inner with
  | .error e => .error e
  | .ok _ => .ok ()

/-- `needle` occurs as a contiguous substring of `hay` (on character
lists). -/
def containsSub (needle : List Char) : List Char → Bool
  | [] => needle.isPrefixOf []
  | c :: rest => needle.isPrefixOf (c :: rest) || containsSub needle rest

/-- The `initial_stack` of the runner registered for `b`, or no values when
none is registered (the registered case is the only one `builtins_stack`
reaches without erroring). -/
def initialStackOf (reg : Registry) (b : BuiltinName) : List MaybeRelocatable :=
  match reg b with
  | some runner => runner.initial_stack
  | none => []

/-- Specification-side formula (§4.3): the concatenation of the builtins'
initial-stack values in list order, `initial_values(ordered_builtin_names)`. -/
def initial_values (reg : Registry) : List BuiltinName → List MaybeRelocatable
  | [] => []
  | b :: rest => initialStackOf reg b ++ initial_values reg rest

/-- The builtin list `builtins_stack` walks: the stored list when no
override is given, the parsed override when it parses. -/
def effectiveBuiltins (st : RunnerSt) : Option (List String) → Option (List BuiltinName)
  | none => some st.builtins
  | some names =>
    match parseBuiltins names with
    | .ok bs => some bs
    | .error _ => none

/-- A concrete one-builtin runner used to instantiate the theorems: pushes
the base address of segment 2 and pops one cell. -/
def runnerW : BuiltinRunnerModel :=
  ⟨[.relocatable ⟨2, 0⟩], fun p => .ok ⟨p.segment_index, p.offset - 1⟩⟩

/-- A registry in which only the output builtin is registered. -/
def regW : Registry := fun b => if b = .output then some runnerW else none

/-- A registry with no runner registered. -/
def regNone : Registry := fun _ => none

/-- A runner state with one stored builtin and tolerance disabled. -/
def stW : RunnerSt := ⟨[.output], false⟩

/-- A runner state with one stored builtin and tolerance enabled. -/
def stC : RunnerSt := ⟨[.output], true⟩

/-- A memory holding integer zero at `(0, 0)` and nothing else. -/
def memC : Memory := fun ptr =>
  if ptr = ⟨0, 0⟩ then some (.int 0) else none

/-- An entirely unknown memory. -/
def memNone : Memory := fun _ => none

end Runner

namespace Runner

lemma builtinsStackLoop_names (reg : Registry) :
    ∀ l : List BuiltinName, (∀ b ∈ l, (reg b).isSome) →
      (builtinsStackLoop reg l).1 = l := by
  intro l
  induction l with
  | nil => intro _; rfl
  | cons b rest ih =>
    intro hreg
    obtain ⟨r, hr⟩ :=
      Option.isSome_iff_exists.mp (hreg b (List.mem_cons_self b rest))
    simp only [builtinsStackLoop, hr]
    exact congrArg (b :: ·) (ih fun c hc => hreg c (List.mem_cons_of_mem _ hc))

lemma builtinsStackLoop_stack (reg : Registry) :
    ∀ l : List BuiltinName, (∀ b ∈ l, (reg b).isSome) →
      (builtinsStackLoop reg l).2 = .ok (initial_values reg l) := by
  intro l
  induction l with
  | nil => intro _; rfl
  | cons b rest ih =>
    intro hreg
    obtain ⟨r, hr⟩ :=
      Option.isSome_iff_exists.mp (hreg b (List.mem_cons_self b rest))
    have htl := ih fun c hc => hreg c (List.mem_cons_of_mem _ hc)
    simp [builtinsStackLoop, hr, htl, initial_values, initialStackOf,
      Except.map]

lemma readReturnLoop_names (st : RunnerSt) (reg : Registry) (mem : Memory) :
    ∀ (l : List BuiltinName) (ptr p : Relocatable),
      (∀ b ∈ l, (reg b).isSome) →
      (readReturnLoop st reg mem l ptr).2 = .ok p →
      (readReturnLoop st reg mem l ptr).1 = l := by
  intro l
  induction l with
  | nil => intro ptr p _ _; rfl
  | cons b rest ih =>
    intro ptr p hreg hok
    obtain ⟨r, hr⟩ :=
      Option.isSome_iff_exists.mp (hreg b (List.mem_cons_self b rest))
    cases hfs : r.final_stack ptr with
    | error e =>
      exfalso
      simp [readReturnLoop, hr, hfs] at hok
    | ok np =>
      simp only [readReturnLoop, hr, hfs] at hok ⊢
      exact congrArg (b :: ·)
        (ih np p (fun c hc => hreg c (List.mem_cons_of_mem _ hc)) hok)

/-- C1: when every name in the stored ordered builtin list has a registered
runner and the return-value walk succeeds, the sequence of builtins whose
`initial_stack` is pushed by the stack-construction loop (in push order)
equals the reverse of the sequence of builtins whose `final_stack` is
invoked by `_read_return_values` (in invocation order): the LIFO
round-trip. -/
theorem push_order_eq_reverse_pop_order (st : RunnerSt) (reg : Registry)
    (mem : Memory) (ap : Relocatable) (offset : Nat) (p : Relocatable)
    (hreg : ∀ b ∈ st.builtins, (reg b).isSome)
    (hok : (read_return_values st reg mem ap offset).2 = .ok p) :
    (builtinsStackLoop reg st.builtins).1 =
      (read_return_values st reg mem ap offset).1.reverse := by
  by_cases hle : offset ≤ ap.offset
  · have hrev : ∀ b ∈ st.builtins.reverse, (reg b).isSome := fun b hb =>
      hreg b (List.mem_reverse.mp hb)
    unfold read_return_values at hok ⊢
    simp only [if_pos hle] at hok ⊢
    rw [readReturnLoop_names st reg mem _ _ p hrev hok,
      List.reverse_reverse]
    exact builtinsStackLoop_names reg st.builtins hreg
  · exfalso
    unfold read_return_values at hok
    simp [if_neg hle] at hok

/-- C1 witness: one registered output builtin, a successful walk from
`ap = (1, 5)` with offset `0`. -/
theorem push_order_eq_reverse_pop_order_witness :
    (builtinsStackLoop regW stW.builtins).1 =
      (read_return_values stW regW memNone ⟨1, 5⟩ 0).1.reverse :=
  push_order_eq_reverse_pop_order stW regW memNone ⟨1, 5⟩ 0 ⟨1, 4⟩
    (by decide) (by rfl)

/-- C2: `verify_and_relocate` runs exactly the phase sequence
verify-auto-deductions, read-return-values, verify-secure-runner, relocate,
in that order; the first failing phase's error is returned and no later
phase runs, so relocation never precedes verification. -/
theorem verify_and_relocate_phase_order (outcome : Phase → Except String Unit) :
    ((∀ p, outcome p = .ok ()) →
      verify_and_relocate outcome =
        ([.verifyAutoDeductions, .readReturnValues, .verifySecureRunner,
          .relocatePhase], .ok ())) ∧
    (∀ e, outcome .verifyAutoDeductions = .error e →
      verify_and_relocate outcome = ([.verifyAutoDeductions], .error e)) ∧
    (∀ e, outcome .verifyAutoDeductions = .ok () →
      outcome .readReturnValues = .error e →
      verify_and_relocate outcome =
        ([.verifyAutoDeductions, .readReturnValues], .error e)) ∧
    (∀ e, outcome .verifyAutoDeductions = .ok () →
      outcome .readReturnValues = .ok () →
      outcome .verifySecureRunner = .error e →
      verify_and_relocate outcome =
        ([.verifyAutoDeductions, .readReturnValues, .verifySecureRunner],
          .error e)) ∧
    (∀ e, outcome .verifyAutoDeductions = .ok () →
      outcome .readReturnValues = .ok () →
      outcome .verifySecureRunner = .ok () →
      outcome .relocatePhase = .error e →
      verify_and_relocate outcome =
        ([.verifyAutoDeductions, .readReturnValues, .verifySecureRunner,
          .relocatePhase], .error e)) := by
  refine ⟨?_, ?_, ?_, ?_, ?_⟩
  · intro h
    simp [verify_and_relocate, h]
  · intro e h
    simp [verify_and_relocate, h]
  · intro e h1 h2
    simp [verify_and_relocate, h1, h2]
  · intro e h1 h2 h3
    simp [verify_and_relocate, h1, h2, h3]
  · intro e h1 h2 h3 h4
    simp [verify_and_relocate, h1, h2, h3, h4]

/-- C2 witness: with every phase succeeding, all four phases run in order. -/
theorem verify_and_relocate_phase_order_witness :
    verify_and_relocate (fun _ => .ok ()) =
      ([.verifyAutoDeductions, .readReturnValues, .verifySecureRunner,
        .relocatePhase], .ok ()) :=
  (verify_and_relocate_phase_order (fun _ => .ok ())).1 (fun _ => rfl)

/-- C3 counterexample: tolerance enabled, the only builtin unregistered,
starting pointer `(0, 0)` (offset already 0) and the cell at `(0, 0)`
holding zero: the walk succeeds but the final pointer still has offset 0 —
it did not move by one cell, refuting the claim's parenthetical "including
when the pointer's offset is already 0". -/
theorem missing_builtin_zero_offset_counterexample :
    (read_return_values stC regNone memC ⟨0, 0⟩ 0).2 = .ok ⟨0, 0⟩ ∧
    ∀ q, (read_return_values stC regNone memC ⟨0, 0⟩ 0).2 = .ok q →
      q.offset + 1 ≠ (0 : Nat) := by
  constructor
  · rfl
  · intro q hq
    have h0 : (read_return_values stC regNone memC ⟨0, 0⟩ 0).2 =
        Except.ok (⟨0, 0⟩ : Relocatable) := rfl
    have hq2 : (⟨0, 0⟩ : Relocatable) = q := Except.ok.inj (h0.symm.trans hq)
    cases hq2
    decide

/-- C3 (amended): with tolerance enabled and an unregistered builtin name at
the head of the reverse walk, the pointer's offset is decremented with
saturation at zero (`usize::saturating_sub(1)`); if the cell at the
decremented pointer holds a nonzero integer the walk fails with the
mismatch error, and if it holds exactly zero the walk continues from the
decremented pointer — one cell lower when the offset was positive, the same
cell when the offset was already 0. -/
theorem missing_builtin_tolerance_step (st : RunnerSt) (reg : Registry)
    (mem : Memory) (b : BuiltinName) (rest : List BuiltinName)
    (ptr : Relocatable)
    (hallow : st.allow_missing_builtins = true) (hreg : reg b = none) :
    (∀ v, getInteger mem ⟨ptr.segment_index, ptr.offset - 1⟩ = .ok v →
      v ≠ 0 →
      readReturnLoop st reg mem (b :: rest) ptr =
        ([], .error ("Missing builtin stop ptr not zero: " ++ b.toStr))) ∧
    (getInteger mem ⟨ptr.segment_index, ptr.offset - 1⟩ = .ok 0 →
      readReturnLoop st reg mem (b :: rest) ptr =
        readReturnLoop st reg mem rest ⟨ptr.segment_index, ptr.offset - 1⟩) := by
  constructor
  · intro v hv hnz
    simp [readReturnLoop, hreg, hallow, hv, hnz]
  · intro hv
    simp [readReturnLoop, hreg, hallow, hv]

/-- C3 witness: at pointer `(0, 1)` the decremented cell `(0, 0)` holds
zero, so the walk continues from `(0, 0)`. -/
theorem missing_builtin_tolerance_step_witness :
    readReturnLoop stC regNone memC [.output] ⟨0, 1⟩ =
      readReturnLoop stC regNone memC [] ⟨0, 0⟩ :=
  (missing_builtin_tolerance_step stC regNone memC .output [] ⟨0, 1⟩
    rfl rfl).2 (by rfl)

/-- C4: for every caller stack and every effective builtin list (stored or
override) whose names are all registered, the call stack handed to the
entrypoint initializer is the concatenation of the builtins'
`initial_stack` values in list order followed by the caller arguments, and
the return frame pointer is a freshly allocated segment: its index is the
previously unused `num_segments`, and the segment counter advances by
one. -/
theorem initialize_vm_stack_and_fresh_return_fp (st : RunnerSt) (vm : VmSt)
    (reg : Registry) (stack : List MaybeRelocatable)
    (ordered_builtins : Option (List String)) (bs : List BuiltinName)
    (heff : effectiveBuiltins st ordered_builtins = some bs)
    (hreg : ∀ b ∈ bs, (reg b).isSome) :
    initialize_vm st vm reg stack ordered_builtins =
      ({ st with builtins := bs }, ⟨vm.num_segments + 1⟩,
        .ok (initial_values reg bs ++ stack,
          ⟨(vm.num_segments : Int), 0⟩)) := by
  have hloop := builtinsStackLoop_stack reg bs hreg
  cases ordered_builtins with
  | none =>
    have hbs : bs = st.builtins := by
      simpa [effectiveBuiltins] using heff.symm
    subst hbs
    simp [initialize_vm, builtins_stack, hloop, add_memory_segment]
  | some names =>
    cases hp : parseBuiltins names with
    | error e =>
      exfalso
      simp [effectiveBuiltins, hp] at heff
    | ok bs2 =>
      have hbs : bs2 = bs := by
        simpa [effectiveBuiltins, hp] using heff
      subst hbs
      simp [initialize_vm, builtins_stack, hp, hloop, add_memory_segment]

/-- C4 witness: empty stored list overridden with `["output_builtin"]`,
caller stack `[5]`, first segment counter 0: the stack is the output
builtin's base followed by `5`, and the return frame pointer is the fresh
segment 0. -/
theorem initialize_vm_stack_and_fresh_return_fp_witness :
    initialize_vm ⟨[], false⟩ ⟨0⟩ regW [.int 5] (some ["output_builtin"]) =
      (⟨[.output], false⟩, ⟨1⟩,
        .ok ([.relocatable ⟨2, 0⟩, .int 5], ⟨0, 0⟩)) :=
  initialize_vm_stack_and_fresh_return_fp ⟨[], false⟩ ⟨0⟩ regW [.int 5]
    (some ["output_builtin"]) [.output] (by rfl) (by decide)

/-- C5: once `relocate` has succeeded on a runner state, calling it again
on the resulting state fails with the already-relocated error, whatever
trace the second relocation would compute. -/
theorem relocate_twice_fails (rw1 : List RelocatedTraceEntry)
    (s s2 : InnerSt) (h : relocate rw1 s = (s2, .ok ())) :
    ∀ rw2 : List RelocatedTraceEntry,
      (relocate rw2 s2).2 = .error "Trace is already relocated" := by
  intro rw2
  cases hrt : s.relocated_trace with
  | some t =>
    exfalso
    simp [relocate, inner_relocate, hrt] at h
  | none =>
    have h2 : relocate rw1 s = ({ s with relocated_trace := some rw1 }, .ok ()) := by
      simp [relocate, inner_relocate, hrt]
    have hs2 : s2 = { s with relocated_trace := some rw1 } :=
      congrArg Prod.fst (h.symm.trans h2)
    subst hs2
    simp [relocate, inner_relocate]

/-- C5 witness: a fresh state relocates once, and the second call fails. -/
theorem relocate_twice_fails_witness :
    (relocate [] ⟨none, some []⟩).2 = .error "Trace is already relocated" :=
  relocate_twice_fails [] ⟨none, none⟩ ⟨none, some []⟩ rfl []

lemma parseBuiltins_first_invalid :
    ∀ names : List String,
      (∃ n ∈ names, BuiltinName.from_str_with_suffix n = none) →
      ∃ n ∈ names, BuiltinName.from_str_with_suffix n = none ∧
        parseBuiltins names = .error ("Invalid builtin name: " ++ n) := by
  intro names
  induction names with
  | nil => intro h; exact absurd h (by simp)
  | cons m rest ih =>
    intro h
    cases hm : BuiltinName.from_str_with_suffix m with
    | none =>
      exact ⟨m, List.mem_cons_self m rest, hm, by simp [parseBuiltins, hm]⟩
    | some b =>
      obtain ⟨n, hn, hbad⟩ := h
      have hnr : n ∈ rest := by
        rcases List.mem_cons.mp hn with hcase | hcase
        · exact absurd hbad (by rw [hcase, hm]; simp)
        · exact hcase
      obtain ⟨n2, hn2, hbad2, herr⟩ := ih ⟨n, hnr, hbad⟩
      exact ⟨n2, List.mem_cons_of_mem _ hn2, hbad2,
        by simp [parseBuiltins, hm, herr, Except.map]⟩

/-- C6: when the override list contains a string that is not a valid
builtin name, `initialize_vm` fails with a value error naming an invalid
name from the list, and the runner state — in particular its stored builtin
list — is returned unchanged: the order override is all-or-nothing. -/
theorem invalid_override_name_leaves_builtins_unchanged (st : RunnerSt)
    (vm : VmSt) (reg : Registry) (stack : List MaybeRelocatable)
    (names : List String) (name : String)
    (hmem : name ∈ names)
    (hbad : BuiltinName.from_str_with_suffix name = none) :
    ∃ bad ∈ names, BuiltinName.from_str_with_suffix bad = none ∧
      builtins_stack st reg (some names) =
        (st, .error ("Invalid builtin name: " ++ bad)) ∧
      initialize_vm st vm reg stack (some names) =
        (st, vm, .error ("Invalid builtin name: " ++ bad)) := by
  obtain ⟨bad, hbmem, hbbad, herr⟩ :=
    parseBuiltins_first_invalid names ⟨name, hmem, hbad⟩
  have hbs : builtins_stack st reg (some names) =
      (st, .error ("Invalid builtin name: " ++ bad)) := by
    simp [builtins_stack, herr]
  exact ⟨bad, hbmem, hbbad, hbs, by simp [initialize_vm, hbs]⟩

/-- C6 witness: the override `["not_a_builtin"]` fails and leaves the
stored list `[output]` in place. -/
theorem invalid_override_name_leaves_builtins_unchanged_witness :
    ∃ bad ∈ ["not_a_builtin"],
      BuiltinName.from_str_with_suffix bad = none ∧
      builtins_stack stW regW (some ["not_a_builtin"]) =
        (stW, .error ("Invalid builtin name: " ++ bad)) ∧
      initialize_vm stW ⟨0⟩ regW [] (some ["not_a_builtin"]) =
        (stW, ⟨0⟩, .error ("Invalid builtin name: " ++ bad)) :=
  invalid_override_name_leaves_builtins_unchanged stW ⟨0⟩ regW []
    ["not_a_builtin"] "not_a_builtin" (by simp) (by rfl)

/-- C7: after relocation the tabular trace view has exactly one row per
relocated trace entry, in the same order, each row carrying the entry's
`pc`/`ap`/`fp` as integers.  `trace_df` is a pure function of the state
(`&self` in the source), so it cannot modify the runner state and repeated
invocations yield the same rows. -/
theorem trace_df_rows (s : InnerSt) (t : List RelocatedTraceEntry)
    (h : s.relocated_trace = some t) :
    (trace_df s).length = t.length ∧
    ∀ i (hi : i < (trace_df s).length) (hj : i < t.length),
      (trace_df s).get ⟨i, hi⟩ =
        ⟨toU64 (t.get ⟨i, hj⟩).pc, toU64 (t.get ⟨i, hj⟩).ap,
          toU64 (t.get ⟨i, hj⟩).fp⟩ := by
  constructor
  · simp [trace_df, h]
  · intro i hi hj
    simp [trace_df, h, List.get_eq_getElem]

/-- C7 witness: a single-entry relocated trace yields the single expected
row. -/
theorem trace_df_rows_witness :
    (trace_df ⟨none, some [⟨1, 2, 3⟩]⟩).length = 1 ∧
    (trace_df ⟨none, some [⟨1, 2, 3⟩]⟩).get ⟨0, by decide⟩ =
      ⟨toU64 1, toU64 2, toU64 3⟩ :=
  ⟨(trace_df_rows ⟨none, some [⟨1, 2, 3⟩]⟩ [⟨1, 2, 3⟩] rfl).1,
    (trace_df_rows ⟨none, some [⟨1, 2, 3⟩]⟩ [⟨1, 2, 3⟩] rfl).2 0
      (by decide) (by decide)⟩

/-- C8 counterexample: with tolerance disabled and the stored builtin
`output` unregistered, `_read_return_values` surfaces the error
"Missing builtin: output", and the lifecycle phase name
(`read_return_values`) does not occur in that message — the error names the
cause, not the phase, refuting the claim that every surfaced error is
wrapped with the phase name. -/
theorem lifecycle_error_lacks_phase_name :
    (read_return_values stW regNone memNone ⟨0, 1⟩ 0).2 =
      .error "Missing builtin: output" ∧
    containsSub "read_return_values".data "Missing builtin: output".data
      = false := by
  constructor
  · rfl
  · rfl

/-- C8 (amended): lifecycle methods surface errors as runtime errors whose
message is the underlying error's display string, unchanged — the
lifecycle phase name is not attached (`map_err(|e|
PyRuntimeError(e.to_string()))` in every phase). -/
theorem lifecycle_error_passthrough (e : String) :
    verify_auto_deductions_py (.error e) = .error e ∧
    verify_secure_runner_py (.error e) = .error e := by
  exact ⟨rfl, rfl⟩

/-- C8 witness: a concrete underlying error message passes through
unchanged. -/
theorem lifecycle_error_passthrough_witness :
    verify_auto_deductions_py (.error "Operand 7 is out of range") =
      .error "Operand 7 is out of range" ∧
    verify_secure_runner_py (.error "Operand 7 is out of range") =
      .error "Operand 7 is out of range" :=
  lifecycle_error_passthrough "Operand 7 is out of range"

/-- C9: before relocation (`relocated_trace` unset), the `relocated_trace`
getter succeeds with an empty entry list, and the `trace_df` getter yields
a table with zero rows — neither fails. -/
theorem accessors_before_relocation_empty (s : InnerSt)
    (h : s.relocated_trace = none) :
    relocated_trace s = .ok [] ∧ trace_df s = [] := by
  simp [relocated_trace, trace_df, h]

/-- C9 witness: the freshly constructed state. -/
theorem accessors_before_relocation_empty_witness :
    relocated_trace ⟨none, none⟩ = .ok [] ∧ trace_df ⟨none, none⟩ = [] :=
  accessors_before_relocation_empty ⟨none, none⟩ rfl

/-- C10: `execution_base` is derived from `program_base`, not stored:
whenever `program_base` is set it is the address one segment above it at
offset 0, and whenever `program_base` is unset both getters return no
value. -/
theorem execution_base_derived (s : InnerSt) :
    (∀ b, s.program_base = some b →
      program_base s = some b ∧
      execution_base s = some ⟨b.segment_index + 1, 0⟩) ∧
    (s.program_base = none →
      program_base s = none ∧ execution_base s = none) := by
  constructor
  · intro b hb
    simp [program_base, execution_base, hb]
  · intro hb
    simp [program_base, execution_base, hb]

/-- C10 witness: with `program_base = (0, 0)` the derived execution base is
`(1, 0)`. -/
theorem execution_base_derived_witness :
    program_base ⟨some ⟨0, 0⟩, none⟩ = some ⟨0, 0⟩ ∧
    execution_base ⟨some ⟨0, 0⟩, none⟩ = some ⟨1, 0⟩ :=
  (execution_base_derived ⟨some ⟨0, 0⟩, none⟩).1 ⟨0, 0⟩ rfl

end Runner
